import Mathlib

/-!
Verification of the bounded in-memory model cache of lightning-whisper-mlx.

The facade (`LightningWhisperMLX` in `lightning.py`) is embedded from the
source.  The cache core (`ModelHolder` in `transcribe.py`) is not present in
the source tree, only its tests and callers are; it is modelled from the
specification (spec.md §3, §4.1).
-/

/-- Numeric precision of a model, the second component of a cache key
(`mx.float16` / `mx.float32` in the tests; spec.md §3 `enum with F16, F32`). -/
inductive Dtype where
  | f16
  | f32
deriving DecidableEq, Repr

/-- One row of the `models` dictionary of `lightning.py`: the repository id
for the base precision and, when present, for the 4bit and 8bit variants. -/
structure ModelEntry where
  base : String
  q4 : Option String
  q8 : Option String
deriving DecidableEq, Repr

/-- The `models` dictionary of `lightning.py`, embedded entry by entry. -/
def models : String → Option ModelEntry
  | "tiny" => some ⟨"mlx-community/whisper-tiny",
      some "mlx-community/whisper-tiny-mlx-4bit",
      some "mlx-community/whisper-tiny-mlx-8bit"⟩
  | "small" => some ⟨"mlx-community/whisper-small-mlx",
      some "mlx-community/whisper-small-mlx-4bit",
      some "mlx-community/whisper-small-mlx-8bit"⟩
  | "distil-small.en" => some ⟨"mustafaaljadery/distil-whisper-mlx", none, none⟩
  | "base" => some ⟨"mlx-community/whisper-base-mlx",
      some "mlx-community/whisper-base-mlx-4bit",
      some "mlx-community/whisper-base-mlx-8bit"⟩
  | "medium" => some ⟨"mlx-community/whisper-medium-mlx",
      some "mlx-community/whisper-medium-mlx-4bit",
      some "mlx-community/whisper-medium-mlx-8bit"⟩
  | "distil-medium.en" => some ⟨"mustafaaljadery/distil-whisper-mlx", none, none⟩
  | "large" => some ⟨"mlx-community/whisper-large-mlx",
      some "mlx-community/whisper-large-mlx-4bit",
      some "mlx-community/whisper-large-mlx-8bit"⟩
  | "large-v2" => some ⟨"mlx-community/whisper-large-v2-mlx",
      some "mlx-community/whisper-large-v2-mlx-4bit",
      some "mlx-community/whisper-large-v2-mlx-8bit"⟩
  | "distil-large-v2" => some ⟨"mustafaaljadery/distil-whisper-mlx", none, none⟩
  | "large-v3" => some ⟨"mlx-community/whisper-large-v3-mlx",
      some "mlx-community/whisper-large-v3-mlx-4bit",
      some "mlx-community/whisper-large-v3-mlx-8bit"⟩
  | "distil-large-v3" => some ⟨"mustafaaljadery/distil-whisper-mlx", none, none⟩
  | _ => none

/-- Python's substring containment test `pat in s`, on character lists. -/
def hasSubstr (pat : List Char) : List Char → Bool
  | [] => pat.isEmpty
  | c :: rest => pat.isPrefixOf (c :: rest) || hasSubstr pat rest

/-- `"distil" in model`, as used by `LightningWhisperMLX.__init__`. -/
def isDistil (m : String) : Bool := hasSubstr "distil".toList m.toList

/-- Python truthiness of the optional `quant` argument: `None` and the empty
string are falsy, every other string is truthy. -/
def quantTruthy : Option String → Bool
  | none => false
  | some q => decide (q ≠ "")

/-- Dictionary lookup `models[model][quant]` for a quant key. Mirrors a Python
dict access: `none` stands for a `KeyError`. -/
def lookupQuant (e : ModelEntry) (q : String) : Option String :=
  if q = "4bit" then e.q4 else if q = "8bit" then e.q8 else none

/-- An externally visible call made by the facade.  `LightningWhisperMLX.__init__`
calls `hf_hub_download`; a call into the model cache's get operation would be a
`cacheGet`. -/
inductive Effect where
  | hfDownload (repoId filename localDir : String)
  | cacheGet (path : String) (d : Dtype)
deriving DecidableEq, Repr

/-- Whether an effect is an invocation of the cache's get operation. -/
def isCacheGet : Effect → Bool
  | .cacheGet _ _ => true
  | .hfDownload _ _ _ => false

/-- Errors raised by `LightningWhisperMLX.__init__`. -/
inductive InitError where
  | invalidQuant
  | invalidModel
  | keyError
deriving DecidableEq, Repr

/-- The state a successful `LightningWhisperMLX.__init__` leaves behind:
`self.name`, the resolved `repo_id`, and the external calls it performed. -/
structure InitResult where
  name : String
  repoId : String
  effects : List Effect
deriving DecidableEq, Repr

/-- `LightningWhisperMLX.__init__(model, batch_size, quant)` from
`lightning.py`: validates `quant` and `model`, resolves `repo_id` from the
`models` dictionary, suffixes the instance name for quantized distil models,
and downloads the two artifacts.  The `batchSize` argument is stored for
inference only and does not influence resolution. -/
def init (model : String) (batchSize : Int) (quant : Option String) :
    Except InitError InitResult :=
  if quantTruthy quant && !(quant == some "4bit") && !(quant == some "8bit") then
    .error .invalidQuant
  else
    match models model with
    | none => .error .invalidModel
    | some entry =>
      let repoRes : Except InitError String :=
        if quantTruthy quant && !(isDistil model) then
          match quant with
          | some q =>
            match lookupQuant entry q with
            | some r => .ok r
            | none => .error .keyError
          | none => .error .keyError
        else .ok entry.base
      match repoRes with
      | .error e => .error e
      | .ok repoId =>
        let name :=
          if quantTruthy quant && isDistil model then
            if quant == some "4bit" then model ++ "-4-bit" else model ++ "-8-bit"
          else model
        let fs :=
          if isDistil model then
            ("./mlx_models/" ++ name ++ "/weights.npz",
             "./mlx_models/" ++ name ++ "/config.json", "./")
          else
            ("weights.npz", "config.json", "./mlx_models/" ++ name)
        .ok { name := name, repoId := repoId,
              effects := [.hfDownload repoId fs.1 fs.2.2,
                          .hfDownload repoId fs.2.1 fs.2.2] }

/-- The path `LightningWhisperMLX.transcribe` hands to the transcription
pipeline (and hence to the model cache) for this instance. -/
def transcribePath (r : InitResult) : String := "./mlx_models/" ++ r.name

/-- A cache key: model path and numeric precision (spec.md §3 `CacheKey`). -/
abbrev CacheKey := String × Dtype

/-- Modelled from the spec: a cache entry of `ModelHolder` (`transcribe.py`,
absent from the source tree).  It owns one model instance — represented by an
identifier so that instance identity and loader invocations are observable —
plus the `lastAccess` bookkeeping of spec.md §3. -/
structure CEntry where
  instanceId : Nat
  lastAccess : Nat
deriving DecidableEq, Repr

/-- Modelled from the spec: the `ModelHolder` cache state of `transcribe.py`
(absent from the source tree): `maxSize` and the key-to-entry mapping of
spec.md §3, here an association list.  `now()` is modelled as the strictly
increasing logical counter `clock`, per the determinism note of spec.md §9;
`nextId` supplies fresh instance identifiers for the Model Loader and `loads`
counts Model Loader invocations. -/
structure Cache where
  maxSize : Nat
  entries : List (CacheKey × CEntry)
  clock : Nat
  nextId : Nat
  loads : Nat
deriving DecidableEq, Repr

/-- Modelled from the spec: the cache at process start — empty, `maxSize = 1`
(spec.md §3 lifecycle). -/
def initCache : Cache :=
  { maxSize := 1, entries := [], clock := 0, nextId := 0, loads := 0 }

/-- Lookup of a full composite key in the entry list. -/
def lookupE (es : List (CacheKey × CEntry)) (k : CacheKey) : Option CEntry :=
  (es.find? fun kv => decide (kv.1 = k)).map Prod.snd

/-- The smallest `lastAccess` among the entries (0 for an empty list). -/
def minAccess : List (CacheKey × CEntry) → Nat
  | [] => 0
  | [kv] => kv.2.lastAccess
  | kv :: kv2 :: rest =>
    if kv.2.lastAccess ≤ minAccess (kv2 :: rest) then kv.2.lastAccess
    else minAccess (kv2 :: rest)

/-- Modelled from the spec: evict the single entry with the smallest
`lastAccess`, ties broken by first-seen order (spec.md §4.1 step 3). -/
def evictOne (es : List (CacheKey × CEntry)) : List (CacheKey × CEntry) :=
  es.eraseP fun kv => decide (kv.2.lastAccess = minAccess es)

/-- Fuelled eviction loop: evict the oldest entry until the list fits. -/
def evictLoop : Nat → List (CacheKey × CEntry) → Nat → List (CacheKey × CEntry)
  | 0, es, _ => es
  | fuel + 1, es, cap => if es.length ≤ cap then es else evictLoop fuel (evictOne es) cap

/-- Modelled from the spec: repeat single-entry eviction until the number of
entries is at most the capacity (spec.md §4.1 step 3). -/
def evict (es : List (CacheKey × CEntry)) (cap : Nat) : List (CacheKey × CEntry) :=
  evictLoop es.length es cap

/-- Modelled from the spec: `ModelHolder.get_model(path, dtype)`
(`transcribe.py`, absent from the source tree; spec.md §4.1 get).  On a hit,
refresh `lastAccess` and return the held instance without invoking the Model
Loader; on a miss, invoke the Model Loader (a fresh instance identifier),
insert the entry, and evict down to capacity.  Returns the instance identifier
and the new cache state. -/
def get_model (s : Cache) (path : String) (d : Dtype) : Nat × Cache :=
  let key : CacheKey := (path, d)
  match lookupE s.entries key with
  | some e =>
    let t := s.clock + 1
    (e.instanceId,
      { s with clock := t,
               entries := s.entries.map fun kv =>
                 if kv.1 = key then (kv.1, { kv.2 with lastAccess := t }) else kv })
  | none =>
    let t := s.clock + 1
    let inserted := s.entries ++ [(key, { instanceId := s.nextId, lastAccess := t })]
    (s.nextId,
      { maxSize := s.maxSize,
        entries := evict inserted s.maxSize,
        clock := t,
        nextId := s.nextId + 1,
        loads := s.loads + 1 })

/-- The cache's error taxonomy relevant to sizing (spec.md §7). -/
inductive CacheError where
  | invalidArgument
deriving DecidableEq, Repr

/-- Modelled from the spec: `ModelHolder.set_cache_size(n)` (`transcribe.py`,
absent from the source tree; spec.md §4.1): rejects `n < 1` with
`InvalidArgument` before any mutation, otherwise sets `maxSize` and evicts
least-recently-used entries until the cache fits. -/
def set_cache_size (s : Cache) (n : Int) : Except CacheError Cache :=
  if n < 1 then .error .invalidArgument
  else .ok { s with maxSize := n.toNat, entries := evict s.entries n.toNat }

/-- Modelled from the spec: `ModelHolder.clear_cache()` (`transcribe.py`,
absent from the source tree; spec.md §4.1): unconditionally empties the
entries. -/
def clear_cache (s : Cache) : Cache := { s with entries := [] }

/-- Modelled from the spec: `ModelHolder.unload_model(path, dtype?)`
(`transcribe.py`, absent from the source tree; spec.md §4.1 unload).  With a
precision, remove the single matching entry; without one, remove every entry
whose path matches.  Returns whether anything was removed, and the new
state. -/
def unload_model (s : Cache) (path : String) (d : Option Dtype) : Bool × Cache :=
  match d with
  | some dt =>
    (s.entries.any fun kv => decide (kv.1 = (path, dt)),
     { s with entries := s.entries.filter fun kv => !decide (kv.1 = (path, dt)) })
  | none =>
    (s.entries.any fun kv => decide (kv.1.1 = path),
     { s with entries := s.entries.filter fun kv => !decide (kv.1.1 = path) })

/-- Modelled from the spec: `ModelHolder.get_cached_count()` (spec.md §4.1). -/
def get_cached_count (s : Cache) : Nat := s.entries.length

/-- Modelled from the spec: `ModelHolder.get_cache_size()` (spec.md §4.1). -/
def get_cache_size (s : Cache) : Nat := s.maxSize

/-- Modelled from the spec: the snapshot returned by
`ModelHolder.get_cache_info()` (spec.md §4.1): max size, current size, and one
(path, precision, lastAccess) triple per entry. -/
def get_cache_info (s : Cache) : Nat × Nat × List (String × Dtype × Nat) :=
  (s.maxSize, s.entries.length, s.entries.map fun kv => (kv.1.1, kv.1.2, kv.2.lastAccess))

/-- A public cache operation (spec.md §4.1). -/
inductive Op where
  | get (path : String) (d : Dtype)
  | setSize (n : Int)
  | clear
  | unload (path : String) (d : Option Dtype)

/-- The state after one public operation returns; a rejected
`set_cache_size` raises before mutating, so the state is unchanged. -/
def step (s : Cache) : Op → Cache
  | .get p d => (get_model s p d).2
  | .setSize n =>
    match set_cache_size s n with
    | .ok s2 => s2
    | .error _ => s
  | .clear => clear_cache s
  | .unload p d => (unload_model s p d).2

/-- The state after a sequence of public operations. -/
def run (s : Cache) (ops : List Op) : Cache := ops.foldl step s

/-- An empty cache whose capacity has been raised to 2. -/
def cap2 : Cache := { initCache with maxSize := 2 }

/-- The cache after loading the same path under two precisions into `cap2`. -/
def twoDtypeState (p : String) (d1 d2 : Dtype) : Cache :=
  (get_model (get_model cap2 p d1).2 p d2).2

/-- The facade state produced by `LightningWhisperMLX("tiny")` with the
default arguments: base repository, two artifact downloads, no cache call. -/
def tinyInit : InitResult :=
  { name := "tiny", repoId := "mlx-community/whisper-tiny",
    effects := [.hfDownload "mlx-community/whisper-tiny" "weights.npz" "./mlx_models/tiny",
                .hfDownload "mlx-community/whisper-tiny" "config.json" "./mlx_models/tiny"] }

lemma minAccess_attained : ∀ es : List (CacheKey × CEntry), es ≠ [] →
    ∃ kv ∈ es, kv.2.lastAccess = minAccess es
  | [], h => absurd rfl h
  | [kv], _ => ⟨kv, List.mem_singleton_self kv, rfl⟩
  | kv :: kv2 :: rest, _ => by
    by_cases hle : kv.2.lastAccess ≤ minAccess (kv2 :: rest)
    · exact ⟨kv, List.mem_cons_self _ _, by rw [minAccess, if_pos hle]⟩
    · obtain ⟨kv3, hmem, heq⟩ := minAccess_attained (kv2 :: rest) (List.cons_ne_nil _ _)
      exact ⟨kv3, List.mem_cons_of_mem _ hmem, by rw [minAccess, if_neg hle]; exact heq⟩

lemma evictOne_length {es : List (CacheKey × CEntry)} (h : es ≠ []) :
    (evictOne es).length + 1 = es.length := by
  obtain ⟨kv, hmem, heq⟩ := minAccess_attained es h
  exact List.length_eraseP_add_one hmem (by simpa using heq)

lemma evictLoop_length : ∀ (fuel : Nat) (es : List (CacheKey × CEntry)) (cap : Nat),
    es.length ≤ fuel + cap → (evictLoop fuel es cap).length ≤ cap
  | 0, es, cap, h => by simpa [evictLoop] using h
  | fuel + 1, es, cap, h => by
    rw [evictLoop]
    by_cases hle : es.length ≤ cap
    · simpa [hle] using hle
    · have hne : es ≠ [] := by
        intro hnil
        simp [hnil] at hle
      have hlen := evictOne_length hne
      simp only [hle, if_false]
      exact evictLoop_length fuel (evictOne es) cap (by omega)

lemma evict_length (es : List (CacheKey × CEntry)) (cap : Nat) :
    (evict es cap).length ≤ cap :=
  evictLoop_length es.length es cap (by omega)

lemma step_entries_le (s : Cache) (op : Op) (h : s.entries.length ≤ s.maxSize) :
    (step s op).entries.length ≤ (step s op).maxSize := by
  cases op with
  | get p d =>
    cases hl : lookupE s.entries (p, d) with
    | some e => simpa [step, get_model, hl] using h
    | none => simpa [step, get_model, hl] using evict_length _ _
  | setSize n =>
    simp only [step]
    cases hn : set_cache_size s n with
    | error e => exact h
    | ok s2 =>
      unfold set_cache_size at hn
      split at hn
      · exact absurd hn (by simp)
      · cases hn
        exact evict_length s.entries (Int.toNat n)
  | clear => simp [step, clear_cache]
  | unload p d =>
    cases d with
    | some dt => simpa [step, unload_model] using le_trans (List.length_filter_le _ _) h
    | none => simpa [step, unload_model] using le_trans (List.length_filter_le _ _) h

lemma run_entries_le (ops : List Op) : ∀ s : Cache, s.entries.length ≤ s.maxSize →
    (run s ops).entries.length ≤ (run s ops).maxSize := by
  induction ops with
  | nil => intro s h; simpa [run] using h
  | cons op rest ih =>
    intro s h
    simpa [run] using ih (step s op) (step_entries_le s op h)

/-- C1: starting from the initial cache, after every sequence of public cache
operations (get, set size, clear, unload) completes, the number of cached
entries is at most the configured maximum cache size. -/
theorem cache_size_invariant (ops : List Op) :
    (run initCache ops).entries.length ≤ (run initCache ops).maxSize :=
  run_entries_le ops initCache (by simp [initCache])

/-- C2: with cache capacity 2, after get on key A, then key B, then
re-accessing A, a get on fresh key C evicts exactly B (smallest lastAccess),
leaving A and C resident. -/
theorem lru_eviction_scenario :
    (run initCache [Op.setSize 2, Op.get "A" Dtype.f16, Op.get "B" Dtype.f16,
        Op.get "A" Dtype.f16, Op.get "C" Dtype.f16]).entries.map Prod.fst
      = [("A", Dtype.f16), ("C", Dtype.f16)] ∧
    lookupE (run initCache [Op.setSize 2, Op.get "A" Dtype.f16, Op.get "B" Dtype.f16,
        Op.get "A" Dtype.f16, Op.get "C" Dtype.f16]).entries ("B", Dtype.f16) = none := by
  decide

/-- C5: `set_cache_size n` with `n < 1` fails with `InvalidArgument`, before
any mutation: the observable cache state after the call is unchanged. -/
theorem reject_invalid_cache_size (s : Cache) (n : Int) (h : n < 1) :
    set_cache_size s n = .error .invalidArgument ∧ step s (.setSize n) = s := by
  have he : set_cache_size s n = .error .invalidArgument := by
    simp [set_cache_size, h]
  exact ⟨he, by simp [step, he]⟩

/-- Witness for C5 at the concrete inputs 0 and -1. -/
theorem reject_invalid_cache_size_witness :
    (set_cache_size initCache 0 = .error .invalidArgument ∧
      step initCache (.setSize 0) = initCache) ∧
    (set_cache_size initCache (-1) = .error .invalidArgument ∧
      step initCache (.setSize (-1)) = initCache) :=
  ⟨reject_invalid_cache_size initCache 0 (by decide),
   reject_invalid_cache_size initCache (-1) (by decide)⟩

/-- C7: `unload_model` with a path and no precision removes exactly the
entries whose key's path matches (any precision), leaving other paths in
place, and reports true iff at least one entry was removed. -/
theorem unload_path_removes_all (s : Cache) (path : String) :
    ((unload_model s path none).1 = true ↔ ∃ kv ∈ s.entries, kv.1.1 = path) ∧
    (∀ kv, kv ∈ (unload_model s path none).2.entries ↔ kv ∈ s.entries ∧ kv.1.1 ≠ path) ∧
    (unload_model s path none).2.maxSize = s.maxSize := by
  refine ⟨?_, fun kv => ?_, rfl⟩
  · simp [unload_model]
  · simp [unload_model, List.mem_filter]

lemma lookupE_map_update (es : List (CacheKey × CEntry)) (k : CacheKey) (t : Nat) :
    lookupE (es.map fun kv => if kv.1 = k then (kv.1, { kv.2 with lastAccess := t }) else kv) k
      = (lookupE es k).map fun e => { e with lastAccess := t } := by
  induction es with
  | nil => simp [lookupE]
  | cons kv rest ih =>
    by_cases hk : kv.1 = k
    · simp [lookupE, hk]
    · simpa [lookupE, hk] using ih

lemma get_model_hit (s : Cache) (path : String) (d : Dtype) (e : CEntry)
    (h : lookupE s.entries (path, d) = some e) :
    (get_model s path d).1 = e.instanceId ∧
    (get_model s path d).2.loads = s.loads ∧
    (get_model s path d).2.nextId = s.nextId ∧
    (get_model s path d).2.clock = s.clock + 1 ∧
    lookupE (get_model s path d).2.entries (path, d)
      = some { e with lastAccess := s.clock + 1 } := by
  simp only [get_model, h]
  refine ⟨trivial, trivial, trivial, trivial, ?_⟩
  rw [lookupE_map_update, h]
  rfl

/-- C3: when the key (path, precision) is resident, `get_model` returns the
held instance, invokes no Model Loader (`loads` and `nextId` unchanged), and
refreshes that entry's `lastAccess` to the time of the call. -/
theorem hit_returns_same_instance (s : Cache) (path : String) (d : Dtype) (e : CEntry)
    (h : lookupE s.entries (path, d) = some e) :
    (get_model s path d).1 = e.instanceId ∧
    (get_model s path d).2.loads = s.loads ∧
    (get_model s path d).2.nextId = s.nextId ∧
    (get_model s path d).2.clock = s.clock + 1 ∧
    lookupE (get_model s path d).2.entries (path, d)
      = some { e with lastAccess := s.clock + 1 } :=
  get_model_hit s path d e h

/-- Witness for C3: a second get on a freshly loaded "A" returns instance 0,
performs no load, and stamps `lastAccess` with the call time. -/
theorem hit_returns_same_instance_witness :
    (get_model (run initCache [Op.setSize 2, Op.get "A" Dtype.f16]) "A" Dtype.f16).1 = 0 ∧
    (get_model (run initCache [Op.setSize 2, Op.get "A" Dtype.f16]) "A" Dtype.f16).2.loads
      = (run initCache [Op.setSize 2, Op.get "A" Dtype.f16]).loads ∧
    lookupE (get_model (run initCache [Op.setSize 2, Op.get "A" Dtype.f16])
        "A" Dtype.f16).2.entries ("A", Dtype.f16) = some ⟨0, 2⟩ := by
  have h := hit_returns_same_instance (run initCache [Op.setSize 2, Op.get "A" Dtype.f16])
    "A" Dtype.f16 ⟨0, 1⟩ (by decide)
  exact ⟨h.1, h.2.1, h.2.2.2.2⟩

/-- C4: `set_cache_size n` with `n ≥ 1` succeeds and immediately evicts
least-recently-used entries until at most `n` remain; with A, B, C loaded in
that order under capacity 3, `set_cache_size 1` leaves only C resident. -/
theorem resize_down_evicts (s : Cache) (n : Int) (h : 1 ≤ n) :
    (∃ s2, set_cache_size s n = .ok s2 ∧
      s2.entries.length ≤ n.toNat ∧ s2.maxSize = n.toNat) ∧
    (run initCache [Op.setSize 3, Op.get "A" Dtype.f16, Op.get "B" Dtype.f16,
        Op.get "C" Dtype.f16, Op.setSize 1]).entries.map Prod.fst
      = [("C", Dtype.f16)] := by
  constructor
  · refine ⟨{ s with maxSize := n.toNat, entries := evict s.entries n.toNat }, ?_, ?_, rfl⟩
    · simp [set_cache_size, show ¬n < 1 by omega]
    · exact evict_length s.entries n.toNat
  · decide

/-- Witness for C4 at `n = 1` on the initial cache. -/
theorem resize_down_evicts_witness :
    (∃ s2, set_cache_size initCache 1 = .ok s2 ∧
      s2.entries.length ≤ Int.toNat 1 ∧ s2.maxSize = Int.toNat 1) ∧
    (run initCache [Op.setSize 3, Op.get "A" Dtype.f16, Op.get "B" Dtype.f16,
        Op.get "C" Dtype.f16, Op.setSize 1]).entries.map Prod.fst
      = [("C", Dtype.f16)] :=
  resize_down_evicts initCache 1 (by decide)

/-- C6: for the same path and two distinct precisions, the two cache keys are
distinct and, with capacity 2, loading both leaves two separate resident
entries — never merged into one. -/
theorem distinct_dtypes_distinct_entries (p : String) (d1 d2 : Dtype) (h : d1 ≠ d2) :
    ((p, d1) : CacheKey) ≠ ((p, d2) : CacheKey) ∧
    (twoDtypeState p d1 d2).entries.length = 2 ∧
    lookupE (twoDtypeState p d1 d2).entries (p, d1) = some ⟨0, 1⟩ ∧
    lookupE (twoDtypeState p d1 d2).entries (p, d2) = some ⟨1, 2⟩ := by
  have hk : ¬((p, d1) : CacheKey) = (p, d2) := by simp [Prod.ext_iff, h]
  have h1 : (get_model cap2 p d1).2
      = { maxSize := 2, entries := [((p, d1), ⟨0, 1⟩)], clock := 1, nextId := 1, loads := 1 } := rfl
  have hl : lookupE [((p, d1), (⟨0, 1⟩ : CEntry))] (p, d2) = none := by
    simp [lookupE, hk]
  have h2 : twoDtypeState p d1 d2
      = { maxSize := 2, entries := [((p, d1), ⟨0, 1⟩), ((p, d2), ⟨1, 2⟩)],
          clock := 2, nextId := 2, loads := 2 } := by
    rw [twoDtypeState, h1]
    simp only [get_model, hl]
    rfl
  rw [h2]
  refine ⟨hk, rfl, ?_, ?_⟩
  · simp [lookupE]
  · simp [lookupE, hk]

/-- Witness for C6 at path "m" with precisions f16 and f32. -/
theorem distinct_dtypes_distinct_entries_witness :
    (("m", Dtype.f16) : CacheKey) ≠ ("m", Dtype.f32) ∧
    (twoDtypeState "m" Dtype.f16 Dtype.f32).entries.length = 2 ∧
    lookupE (twoDtypeState "m" Dtype.f16 Dtype.f32).entries ("m", Dtype.f16) = some ⟨0, 1⟩ ∧
    lookupE (twoDtypeState "m" Dtype.f16 Dtype.f32).entries ("m", Dtype.f32) = some ⟨1, 2⟩ :=
  distinct_dtypes_distinct_entries "m" Dtype.f16 Dtype.f32 (by decide)

lemma init_ok_no_cache_get (model : String) (bs : Int) (quant : Option String) (r : InitResult)
    (h : init model bs quant = .ok r) :
    r.effects.any isCacheGet = false := by
  unfold init at h
  repeat' split at h
  all_goals cases h
  all_goals simp [isCacheGet]

/-- C8 counterexample: at the concrete input `("tiny", batch 12, no quant)`
the constructor succeeds, and the calls it performs are exactly two artifact
downloads — it never invokes the cache's get operation, contrary to the
claim that construction calls get. -/
theorem init_tiny_no_cache_get :
    init "tiny" 12 none = .ok tinyInit ∧
    tinyInit.effects.any isCacheGet = false ∧
    tinyInit.effects
      = [.hfDownload "mlx-community/whisper-tiny" "weights.npz" "./mlx_models/tiny",
         .hfDownload "mlx-community/whisper-tiny" "config.json" "./mlx_models/tiny"] :=
  ⟨rfl, rfl, rfl⟩

/-- C8 (amended): every successful facade construction performs only
downloads and never invokes the cache's get operation; the cache is first
consulted at transcription time, under the path `./mlx_models/<name>`
determined by the constructor, and whenever that key is resident a get
returns the one held instance with no Model Loader invocation — so two
instances with the same resolved (path, precision) share the underlying
instance once it is loaded. -/
theorem init_downloads_without_cache_get (model : String) (bs : Int) (quant : Option String)
    (r : InitResult) (h : init model bs quant = .ok r) :
    r.effects.any isCacheGet = false ∧
    transcribePath r = "./mlx_models/" ++ r.name ∧
    ∀ (s : Cache) (d : Dtype) (e : CEntry),
      lookupE s.entries (transcribePath r, d) = some e →
        (get_model s (transcribePath r) d).1 = e.instanceId ∧
        (get_model s (transcribePath r) d).2.loads = s.loads := by
  refine ⟨init_ok_no_cache_get model bs quant r h, rfl, fun s d e he => ?_⟩
  obtain ⟨h1, h2, _, _, _⟩ := get_model_hit s (transcribePath r) d e he
  exact ⟨h1, h2⟩

/-- Witness for C8 (amended) at the concrete construction of "tiny". -/
theorem init_downloads_without_cache_get_witness :
    tinyInit.effects.any isCacheGet = false ∧
    transcribePath tinyInit = "./mlx_models/tiny" := by
  have h := init_downloads_without_cache_get "tiny" 12 none tinyInit rfl
  refine ⟨h.1, ?_⟩
  rw [h.2.1]
  decide

/-- C10: for a model name containing "distil" and quant "4bit" or "8bit",
the constructor resolves the download repository to the model's base entry
(the quant value does not select the artifacts) while appending "-4-bit" or
"-8-bit" to the instance name, so the base-precision artifacts are stored
under the quant-suffixed `./mlx_models/<name>` path and transcription later
looks the model up under that same path. -/
theorem distil_quant_resolution (model : String) (bs : Int) (q : String) (entry : ModelEntry)
    (hm : models model = some entry) (hd : isDistil model = true)
    (hq : q = "4bit" ∨ q = "8bit") :
    ∃ r, init model bs (some q) = .ok r ∧
      r.repoId = entry.base ∧
      r.name = model ++ (if q = "4bit" then "-4-bit" else "-8-bit") ∧
      r.effects = [.hfDownload entry.base ("./mlx_models/" ++ r.name ++ "/weights.npz") "./",
                   .hfDownload entry.base ("./mlx_models/" ++ r.name ++ "/config.json") "./"] ∧
      transcribePath r = "./mlx_models/" ++ r.name := by
  rcases hq with hq | hq <;> subst hq
  · refine ⟨InitResult.mk (model ++ "-4-bit") entry.base
      [.hfDownload entry.base ("./mlx_models/" ++ (model ++ "-4-bit") ++ "/weights.npz") "./",
       .hfDownload entry.base ("./mlx_models/" ++ (model ++ "-4-bit") ++ "/config.json") "./"],
      ?_, rfl, by simp, rfl, rfl⟩
    simp [init, hm, hd, show quantTruthy (some "4bit") = true from by decide]
  · refine ⟨InitResult.mk (model ++ "-8-bit") entry.base
      [.hfDownload entry.base ("./mlx_models/" ++ (model ++ "-8-bit") ++ "/weights.npz") "./",
       .hfDownload entry.base ("./mlx_models/" ++ (model ++ "-8-bit") ++ "/config.json") "./"],
      ?_, rfl, by simp, rfl, rfl⟩
    simp [init, hm, hd, show quantTruthy (some "8bit") = true from by decide]

/-- Witness for C10 at the concrete model "distil-small.en" with quant
"4bit". -/
theorem distil_quant_resolution_witness :
    ∃ r, init "distil-small.en" 12 (some "4bit") = .ok r ∧
      r.repoId = "mustafaaljadery/distil-whisper-mlx" ∧
      r.name = "distil-small.en" ++ (if "4bit" = "4bit" then "-4-bit" else "-8-bit") := by
  obtain ⟨r, h1, h2, h3, _, _⟩ := distil_quant_resolution "distil-small.en" 12 "4bit"
    ⟨"mustafaaljadery/distil-whisper-mlx", none, none⟩ (by decide) (by decide) (Or.inl rfl)
  exact ⟨r, h1, h2, h3⟩
